import Mathlib

/-!
Verification of the Neptune parameter-group resource
(`aws/resource_aws_neptune_parameter_group.go`).

The Go file is embedded shallowly:

* a `parameter` block element becomes the structure `Parameter`;
* `resourceAwsNeptuneParameterHash` builds the buffer
  `name ++ "-" ++ strings.ToLower(value) ++ "-"` and feeds it to
  `hashcode.String`; the hash of that library function is abstracted as the
  buffer string itself (the library hash is a pure function of the buffer, so
  two parameters receive the same set key exactly when their buffers agree,
  up to 32-bit hash collisions which we idealise away);
* `schema.Set.Difference` keeps the elements of the receiver whose key is
  absent from the argument; it is embedded as a filter over lists that are
  assumed, as the spec demands, deduplicated by key;
* every remote AWS call is recorded in a trace, and an `Env` oracle decides
  the outcome of the k-th call issued; wall-clock retry budgets
  (30 seconds for resets, 3 minutes for delete) are abstracted as a `fuel`
  bound on the number of attempts `resource.Retry` performs;
* `expandNeptuneParameters` / `flattenNeptuneParameters` (defined in another
  file of the repository) translate between the set elements and the wire
  shape one-to-one; they are modelled as the identity, and their error paths
  (never exercised by well-typed sets) are dropped.
-/

/-- One element of the `parameter` set: `name`, `value` and `apply_method`
exactly as in the schema (all strings; `apply_method` defaults to
`"immediate"`). -/
structure Parameter where
  name : String
  value : String
  applyMethod : String
deriving DecidableEq, Repr

/-- Go function `strings.ToLower` as the code uses it on parameter values (modelled
with the character-level case mapping of `Char.toLower`). -/
def strToLower (s : String) : String := String.mk (s.data.map Char.toLower)

/-- The set key of `resourceAwsNeptuneParameterHash`: the buffer
`name ++ "-" ++ strings.ToLower(value) ++ "-"` (the `hashcode.String` applied
to the buffer in the Go code is abstracted as the buffer itself; `apply_method`
is not written to the buffer). -/
def resourceAwsNeptuneParameterHash (p : Parameter) : String :=
  p.name ++ "-" ++ strToLower p.value ++ "-"

/-- Modelled from the spec: `identityOf(p) = (p.name, toLower(p.value))`, the
pair the specification uses as parameter identity.  Kept separate from
`resourceAwsNeptuneParameterHash` so the two notions can be compared. -/
def specParameterIdentity (p : Parameter) : String × String :=
  (p.name, strToLower p.value)

/-- Modelled from the spec: the removal list as the specification words it,
`elements of old whose identity (name, lowercased value) is absent from new`. -/
def specToRemove (o n : List Parameter) : List Parameter :=
  o.filter fun p => !(n.any fun q => specParameterIdentity q == specParameterIdentity p)

/-- Framework operation `schema.Set.Difference`: the elements of `os` whose set key is absent from
`ns`, in the iteration order of `os` (the framework lists a set in a
deterministic order; membership is decided by the key of
`resourceAwsNeptuneParameterHash`). -/
def setDifference (os ns : List Parameter) : List Parameter :=
  os.filter fun p =>
    !(ns.any fun q => resourceAwsNeptuneParameterHash q == resourceAwsNeptuneParameterHash p)

/-- Equality of the two hash-keyed collections: every key of one occurs in the
other.  This is how the framework's set comparison sees the `parameter`
attribute. -/
def sameByIdentity (o n : List Parameter) : Bool :=
  (o.all fun p => n.any fun q => resourceAwsNeptuneParameterHash q == resourceAwsNeptuneParameterHash p) &&
  (n.all fun p => o.any fun q => resourceAwsNeptuneParameterHash q == resourceAwsNeptuneParameterHash p)

/-- The host framework's `d.HasChange("parameter")` (out of scope of the
source file, described by the spec as `old != new` by full collection-identity
comparison): the hash-keyed collections differ. -/
def hasChangeParameter (o n : List Parameter) : Bool :=
  !(sameByIdentity o n)

/-- Constant `maxParams = 20` of the source: at most 20 parameters per remote call. -/
def maxParams : Nat := 20

/-- The slice taken by one iteration of the update loops:
`toRemove[:]` when the list fits in one call, else `toRemove[:maxParams]`. -/
def headChunk (l : List Parameter) : List Parameter :=
  if l.length ≤ maxParams then l else l.take maxParams

/-- What the update loops leave for the next iteration: `nil` when the list
fits in one call, else `toRemove[maxParams:]`. -/
def restChunk (l : List Parameter) : List Parameter :=
  if l.length ≤ maxParams then [] else l.drop maxParams

/-- The batches the update loops walk through, in order: repeatedly slice off
`headChunk` until the list is exhausted. -/
def batchParams (l : List Parameter) : List (List Parameter) :=
  if h : l = [] then []
  else headChunk l :: batchParams (restChunk l)
termination_by l.length
decreasing_by
  simp only [restChunk]
  split
  · simpa using List.length_pos.mpr h
  · rw [List.length_drop]
    exact Nat.sub_lt (List.length_pos.mpr h) (by simp [maxParams])

/-- An AWS service error as `isAWSErr` sees it: a code and a message. -/
structure AwsErr where
  code : String
  message : String
deriving DecidableEq, Repr

/-- Whether `pat` matches at the front of `s`. -/
def charsMatchHere : List Char → List Char → Bool
  | [], _ => true
  | _ :: _, [] => false
  | p :: ps, c :: cs => p == c && charsMatchHere ps cs

/-- Whether `pat` occurs somewhere in `s`. -/
def charsContain (pat : List Char) : List Char → Bool
  | [] => charsMatchHere pat []
  | c :: cs => charsMatchHere pat (c :: cs) || charsContain pat cs

/-- Go function `strings.Contains s pat`. -/
def strContains (s pat : String) : Bool :=
  charsContain pat.toList s.toList

/-- Helper `isAWSErr(err, code, message)` of the provider: the error's code equals `code` and its
message contains `message` (an empty `message` always matches). -/
def isAWSErr (e : AwsErr) (code message : String) : Bool :=
  e.code == code && strContains e.message message

/-- Code `neptune.ErrCodeDBParameterGroupNotFoundFault`. -/
def ErrCodeDBParameterGroupNotFoundFault : String := "DBParameterGroupNotFound"

/-- Code `neptune.ErrCodeInvalidDBParameterGroupStateFault`. -/
def ErrCodeInvalidDBParameterGroupStateFault : String := "InvalidDBParameterGroupState"

/-- A remote AWS call issued by the resource, with its arguments. -/
inductive RemoteCall where
  | createGroup (name family description : String)
  | describeGroup (id : String)
  | describeParams (id : String)
  | reset (group : String) (params : List Parameter)
  | modify (group : String) (params : List Parameter)
  | deleteGroup (id : String)
deriving DecidableEq, Repr

/-- An error as surfaced by a resource function: either the raw AWS error,
the AWS error wrapped by an `fmt.Errorf` context string, or a locally built
error. -/
inductive ProviderErr where
  | aws (e : AwsErr)
  | wrapped (context : String) (e : AwsErr)
  | localErr (msg : String)
deriving DecidableEq, Repr

/-- The remote service: `respond k` is the outcome of the k-th remote call
issued (counted over the whole trace).  A success carries the list of group
names the call returns (ignored by reset/modify/delete). -/
structure Env where
  respond : Nat → Except AwsErr (List String)

/-- The locally persisted resource state: `d.Id()` (`""` when no identifier
is assigned, as in the framework). -/
structure ResState where
  id : String
deriving DecidableEq, Repr

/-- Wrapper `resource.Retry(budget, f)` around one remote call `c`, classifying an
error as retryable exactly when `isAWSErr err code message` holds: issue the
call (recording it in the trace); success ends the retry with no error; a
retryable error is retried while `fuel` lasts and surfaced when the budget is
exhausted; any other error is surfaced at once.  `fuel + 1` is the number of
attempts the wall-clock budget admits. -/
def retryCall (env : Env) (c : RemoteCall) (code message : String) :
    Nat → List RemoteCall → List RemoteCall × Option AwsErr
  | fuel, tr =>
    match env.respond tr.length with
    | Except.ok _ => (tr ++ [c], none)
    | Except.error e =>
      if isAWSErr e code message then
        match fuel with
        | 0 => (tr ++ [c], some e)
        | f + 1 => retryCall env c code message f (tr ++ [c])
      else (tr ++ [c], some e)

/-- The `for len(toRemove) > 0` loop of `resourceAwsNeptuneParameterGroupUpdate`:
slice off up to `maxParams` parameters, issue `ResetDBParameterGroup` for them
under `resource.Retry(30*time.Second, ...)` with the
`InvalidDBParameterGroupState` / `" has pending changes"` classifier, stop
with a wrapped error on failure, and continue with the rest on success. -/
def resetLoop (env : Env) (fuel : Nat) (g : String)
    (toRemove : List Parameter) (tr : List RemoteCall) :
    List RemoteCall × Option ProviderErr :=
  if h : toRemove = [] then (tr, none)
  else
    match retryCall env (RemoteCall.reset g (headChunk toRemove))
        "InvalidDBParameterGroupState" " has pending changes" fuel tr with
    | (tr2, some e) =>
      (tr2, some (ProviderErr.wrapped "Error resetting Neptune Parameter Group" e))
    | (tr2, none) => resetLoop env fuel g (restChunk toRemove) tr2
termination_by toRemove.length
decreasing_by
  simp only [restChunk]
  split
  · simpa using List.length_pos.mpr h
  · rw [List.length_drop]
    exact Nat.sub_lt (List.length_pos.mpr h) (by simp [maxParams])

/-- The `for len(toAdd) > 0` loop of `resourceAwsNeptuneParameterGroupUpdate`:
slice off up to `maxParams` parameters and issue `ModifyDBParameterGroup` for
them — with no retry wrapper; any failure stops the loop with a wrapped
error. -/
def modifyLoop (env : Env) (g : String)
    (toAdd : List Parameter) (tr : List RemoteCall) :
    List RemoteCall × Option ProviderErr :=
  if h : toAdd = [] then (tr, none)
  else
    match env.respond tr.length with
    | Except.error e =>
      (tr ++ [RemoteCall.modify g (headChunk toAdd)],
        some (ProviderErr.wrapped "Error modifying Neptune Parameter Group" e))
    | Except.ok _ =>
      modifyLoop env g (restChunk toAdd) (tr ++ [RemoteCall.modify g (headChunk toAdd)])
termination_by toAdd.length
decreasing_by
  simp only [restChunk]
  split
  · simpa using List.length_pos.mpr h
  · rw [List.length_drop]
    exact Nat.sub_lt (List.length_pos.mpr h) (by simp [maxParams])

/-- The mutation part of `resourceAwsNeptuneParameterGroupUpdate`, before the
final read-back: if `d.HasChange("parameter")`, compute the two set
differences and run the reset loop followed by the modify loop, stopping at
the first surfaced error; otherwise issue nothing. -/
def updatePipeline (env : Env) (fuel : Nat) (g : String)
    (o n : List Parameter) (tr : List RemoteCall) :
    List RemoteCall × Option ProviderErr :=
  if hasChangeParameter o n then
    match resetLoop env fuel g (setDifference o n) tr with
    | (tr1, some e) => (tr1, some e)
    | (tr1, none) => modifyLoop env g (setDifference n o) tr1
  else (tr, none)

/-- Function `resourceAwsNeptuneParameterGroupRead`: describe the group by `d.Id()`;
a `DBParameterGroupNotFound` error clears the identifier and succeeds; any
other error is surfaced; a response that does not hold exactly the requested
group is a local error; otherwise the user parameters are fetched (all pages
drained, modelled as one call) and any error of that call surfaced. -/
def resourceAwsNeptuneParameterGroupRead (env : Env) (st : ResState)
    (tr : List RemoteCall) : ResState × List RemoteCall × Option ProviderErr :=
  let tr1 := tr ++ [RemoteCall.describeGroup st.id]
  match env.respond tr.length with
  | Except.error e =>
    if isAWSErr e ErrCodeDBParameterGroupNotFoundFault "" then
      ({ id := "" }, tr1, none)
    else (st, tr1, some (ProviderErr.aws e))
  | Except.ok names =>
    if names.length = 1 ∧ names.headD "" = st.id then
      match env.respond tr1.length with
      | Except.error e => (st, tr1 ++ [RemoteCall.describeParams st.id], some (ProviderErr.aws e))
      | Except.ok _ => (st, tr1 ++ [RemoteCall.describeParams st.id], none)
    else (st, tr1, some (ProviderErr.localErr "Unable to find Parameter Group"))

/-- Function `resourceAwsNeptuneParameterGroupUpdate`: run the mutation pipeline on
the changed `parameter` attribute (group name `g` from `d.Get("name")`), and
return its error — leaving the state untouched — if it surfaced one;
otherwise finish with `resourceAwsNeptuneParameterGroupRead`. -/
def resourceAwsNeptuneParameterGroupUpdate (env : Env) (fuel : Nat) (g : String)
    (o n : List Parameter) (st : ResState) (tr : List RemoteCall) :
    ResState × List RemoteCall × Option ProviderErr :=
  match updatePipeline env fuel g o n tr with
  | (tr1, some e) => (st, tr1, some e)
  | (tr1, none) => resourceAwsNeptuneParameterGroupRead env st tr1

/-- Function `resourceAwsNeptuneParameterGroupCreate`: issue `CreateDBParameterGroup`
with name/family/description; a failure is wrapped and surfaced with the
state untouched (no identifier assigned); on success `d.SetId` takes the
group name of the response (modelled as the head of the returned name list)
and `resourceAwsNeptuneParameterGroupUpdate` runs on the same data. -/
def resourceAwsNeptuneParameterGroupCreate (env : Env) (fuel : Nat)
    (name family description : String) (o n : List Parameter)
    (st : ResState) (tr : List RemoteCall) :
    ResState × List RemoteCall × Option ProviderErr :=
  match env.respond tr.length with
  | Except.error e =>
    (st, tr ++ [RemoteCall.createGroup name family description],
      some (ProviderErr.wrapped "Error creating Neptune Parameter Group" e))
  | Except.ok names =>
    resourceAwsNeptuneParameterGroupUpdate env fuel name o n
      { st with id := names.headD "" }
      (tr ++ [RemoteCall.createGroup name family description])

/-- Function `resourceAwsNeptuneParameterGroupDelete`: `DeleteDBParameterGroup` under
`resource.Retry(3*time.Minute, ...)`; success and `DBParameterGroupNotFound`
both end with no error; `InvalidDBParameterGroupStateFault` is retried while
`fuel` lasts and surfaced when the budget is exhausted; any other error is
surfaced at once. -/
def resourceAwsNeptuneParameterGroupDelete (env : Env) :
    Nat → String → List RemoteCall → List RemoteCall × Option ProviderErr
  | fuel, id, tr =>
    match env.respond tr.length with
    | Except.ok _ => (tr ++ [RemoteCall.deleteGroup id], none)
    | Except.error e =>
      if isAWSErr e ErrCodeDBParameterGroupNotFoundFault "" then
        (tr ++ [RemoteCall.deleteGroup id], none)
      else if isAWSErr e ErrCodeInvalidDBParameterGroupStateFault "" then
        match fuel with
        | 0 => (tr ++ [RemoteCall.deleteGroup id], some (ProviderErr.aws e))
        | f + 1 => resourceAwsNeptuneParameterGroupDelete env f id (tr ++ [RemoteCall.deleteGroup id])
      else (tr ++ [RemoteCall.deleteGroup id], some (ProviderErr.aws e))

/-- A describe call (the two calls the read path issues). -/
def isDescribeCall : RemoteCall → Bool
  | RemoteCall.describeGroup _ => true
  | RemoteCall.describeParams _ => true
  | _ => false

/-- A trace fragment that the reset loop can emit for the batch list `bs`:
for a leading portion of `bs`, in order, one or more `reset` calls per batch
(the repetitions are the retry attempts), stopping anywhere. -/
inductive ResetCalls (g : String) : List (List Parameter) → List RemoteCall → Prop
  | done (bs : List (List Parameter)) : ResetCalls g bs []
  | step (b : List Parameter) (k : Nat) (bs : List (List Parameter))
      (rest : List RemoteCall) (h : ResetCalls g bs rest) :
      ResetCalls g (b :: bs) (List.replicate (k + 1) (RemoteCall.reset g b) ++ rest)

/-- A trace fragment that the modify loop can emit for the batch list `bs`:
for a leading portion of `bs`, in order, exactly one `modify` call per batch,
stopping anywhere. -/
inductive ModifyCalls (g : String) : List (List Parameter) → List RemoteCall → Prop
  | done (bs : List (List Parameter)) : ModifyCalls g bs []
  | step (b : List Parameter) (bs : List (List Parameter))
      (rest : List RemoteCall) (h : ModifyCalls g bs rest) :
      ModifyCalls g (b :: bs) (RemoteCall.modify g b :: rest)

/-- An environment where every remote call succeeds (returning no names). -/
def okEnv : Env := Env.mk fun _ => Except.ok []

/-! ### Helper lemmas about chunking -/

theorem headChunk_append_restChunk (l : List Parameter) :
    headChunk l ++ restChunk l = l := by
  by_cases h : l.length ≤ maxParams <;> simp [headChunk, restChunk, h]

theorem restChunk_length_lt (l : List Parameter) (h : l ≠ []) :
    (restChunk l).length < l.length := by
  have hp : 0 < l.length := List.length_pos.mpr h
  rw [restChunk]
  split
  · simpa using hp
  · next hc =>
    rw [List.length_drop]
    simp only [maxParams] at hc ⊢
    omega

theorem headChunk_length_le (l : List Parameter) :
    (headChunk l).length ≤ maxParams := by
  rw [headChunk]
  split
  · next hc => exact hc
  · rw [List.length_take]
    exact min_le_left _ _

theorem headChunk_ne_nil (l : List Parameter) (h : l ≠ []) :
    headChunk l ≠ [] := by
  rw [headChunk]
  split
  · exact h
  · next hc =>
    intro ht
    have hlen := congrArg List.length ht
    rw [List.length_take, List.length_nil] at hlen
    simp only [maxParams] at hlen hc
    omega

theorem restChunk_eq_nil_iff (l : List Parameter) :
    restChunk l = [] ↔ l.length ≤ maxParams := by
  rw [restChunk]
  split
  · next hc => simp [hc]
  · next hc =>
    simp only [hc, iff_false]
    intro ht
    have hlen := congrArg List.length ht
    rw [List.length_drop, List.length_nil] at hlen
    simp only [maxParams] at hlen hc
    omega

theorem headChunk_length_of_gt (l : List Parameter) (h : ¬ l.length ≤ maxParams) :
    (headChunk l).length = maxParams := by
  rw [headChunk, if_neg h, List.length_take]
  simp only [maxParams] at h ⊢
  omega

theorem chunk_induction (P : List Parameter → Prop) (h0 : P [])
    (hstep : ∀ l, l ≠ [] → P (restChunk l) → P l) : ∀ l, P l := by
  have H : ∀ (m : Nat) (l : List Parameter), l.length ≤ m → P l := by
    intro m
    induction m with
    | zero =>
      intro l hl
      have : l = [] := by
        cases l with
        | nil => rfl
        | cons a t => simp at hl
      exact this ▸ h0
    | succ m ih =>
      intro l hl
      by_cases h : l = []
      · exact h ▸ h0
      · refine hstep l h (ih _ ?_)
        have := restChunk_length_lt l h
        omega
  exact fun l => H l.length l le_rfl

theorem batchParams_nil : batchParams [] = [] := by
  simp [batchParams]

theorem batchParams_cons (l : List Parameter) (h : l ≠ []) :
    batchParams l = headChunk l :: batchParams (restChunk l) := by
  rw [batchParams]
  exact dif_neg h

/-! ### Helper lemmas about the retry wrapper -/

theorem retryCall_ok (env : Env) (c : RemoteCall) (code message : String)
    (fuel : Nat) (tr : List RemoteCall) (v : List String)
    (h : env.respond tr.length = Except.ok v) :
    retryCall env c code message fuel tr = (tr ++ [c], none) := by
  cases fuel <;> simp [retryCall, h]

theorem retryCall_fatal (env : Env) (c : RemoteCall) (code message : String)
    (fuel : Nat) (tr : List RemoteCall) (e : AwsErr)
    (h : env.respond tr.length = Except.error e)
    (hcl : isAWSErr e code message = false) :
    retryCall env c code message fuel tr = (tr ++ [c], some e) := by
  cases fuel <;> simp [retryCall, h, hcl]

theorem retryCall_exhaust (env : Env) (c : RemoteCall) (code message : String)
    (e : AwsErr) (h : ∀ k, env.respond k = Except.error e)
    (hcl : isAWSErr e code message = true) :
    ∀ (fuel : Nat) (tr : List RemoteCall),
      retryCall env c code message fuel tr =
        (tr ++ List.replicate (fuel + 1) c, some e) := by
  intro fuel
  induction fuel with
  | zero => intro tr; simp [retryCall, h tr.length, hcl]
  | succ f ih =>
    intro tr
    rw [retryCall]
    simp only [h tr.length, hcl, if_true]
    rw [ih (tr ++ [c])]
    simp [List.replicate_succ, List.append_assoc]

theorem retryCall_recovers (env : Env) (c : RemoteCall) (code message : String)
    (e : AwsErr) (hcl : isAWSErr e code message = true) :
    ∀ (j fuel : Nat) (tr : List RemoteCall) (v : List String), j ≤ fuel →
      (∀ k, k < j → env.respond (tr.length + k) = Except.error e) →
      env.respond (tr.length + j) = Except.ok v →
      retryCall env c code message fuel tr = (tr ++ List.replicate (j + 1) c, none) := by
  intro j
  induction j with
  | zero =>
    intro fuel tr v hj hk hok
    simp only [Nat.add_zero] at hok
    cases fuel <;> simp [retryCall, hok]
  | succ j ih =>
    intro fuel tr v hj hk hok
    cases fuel with
    | zero => omega
    | succ f =>
      have h0 : env.respond tr.length = Except.error e := by
        have := hk 0 (Nat.succ_pos j)
        simpa using this
      rw [retryCall]
      simp only [h0, hcl, if_true]
      have hrec := ih f (tr ++ [c]) v (by omega)
        (fun k hkk => by
          have hx := hk (k + 1) (by omega)
          have hl : (tr ++ [c]).length + k = tr.length + (k + 1) := by
            simp [List.length_append]
            omega
          rw [hl]
          exact hx)
        (by
          have hl : (tr ++ [c]).length + j = tr.length + (j + 1) := by
            simp [List.length_append]
            omega
          rw [hl]
          exact hok)
      rw [hrec]
      simp [List.replicate_succ, List.append_assoc]

theorem retryCall_trace (env : Env) (c : RemoteCall) (code message : String) :
    ∀ (fuel : Nat) (tr : List RemoteCall),
      ∃ k, (retryCall env c code message fuel tr).1 = tr ++ List.replicate (k + 1) c := by
  intro fuel
  induction fuel with
  | zero =>
    intro tr
    refine ⟨0, ?_⟩
    rcases h : env.respond tr.length with e | v <;> simp [retryCall, h]
  | succ f ih =>
    intro tr
    rcases h : env.respond tr.length with e | v
    · by_cases hcl : isAWSErr e code message
      · obtain ⟨k, hk⟩ := ih (tr ++ [c])
        refine ⟨k + 1, ?_⟩
        rw [retryCall]
        simp only [h, hcl, if_true]
        rw [hk]
        simp [List.replicate_succ, List.append_assoc]
      · exact ⟨0, by simp [retryCall, h, hcl]⟩
    · exact ⟨0, by simp [retryCall, h]⟩

/-! ### Unfolding lemmas for the update loops -/

theorem resetLoop_nil (env : Env) (fuel : Nat) (g : String) (tr : List RemoteCall) :
    resetLoop env fuel g [] tr = (tr, none) := by
  unfold resetLoop
  rfl

theorem resetLoop_fail (env : Env) (fuel : Nat) (g : String)
    (l : List Parameter) (tr tr2 : List RemoteCall) (e : AwsErr) (h : l ≠ [])
    (hr : retryCall env (RemoteCall.reset g (headChunk l))
      "InvalidDBParameterGroupState" " has pending changes" fuel tr = (tr2, some e)) :
    resetLoop env fuel g l tr =
      (tr2, some (ProviderErr.wrapped "Error resetting Neptune Parameter Group" e)) := by
  rw [resetLoop, dif_neg h, hr]

theorem resetLoop_step (env : Env) (fuel : Nat) (g : String)
    (l : List Parameter) (tr tr2 : List RemoteCall) (h : l ≠ [])
    (hr : retryCall env (RemoteCall.reset g (headChunk l))
      "InvalidDBParameterGroupState" " has pending changes" fuel tr = (tr2, none)) :
    resetLoop env fuel g l tr = resetLoop env fuel g (restChunk l) tr2 := by
  rw [resetLoop, dif_neg h, hr]

theorem modifyLoop_nil (env : Env) (g : String) (tr : List RemoteCall) :
    modifyLoop env g [] tr = (tr, none) := by
  unfold modifyLoop
  rfl

theorem modifyLoop_fail (env : Env) (g : String) (l : List Parameter)
    (tr : List RemoteCall) (e : AwsErr) (h : l ≠ [])
    (hr : env.respond tr.length = Except.error e) :
    modifyLoop env g l tr =
      (tr ++ [RemoteCall.modify g (headChunk l)],
        some (ProviderErr.wrapped "Error modifying Neptune Parameter Group" e)) := by
  rw [modifyLoop, dif_neg h, hr]

theorem modifyLoop_step (env : Env) (g : String) (l : List Parameter)
    (tr : List RemoteCall) (v : List String) (h : l ≠ [])
    (hr : env.respond tr.length = Except.ok v) :
    modifyLoop env g l tr =
      modifyLoop env g (restChunk l) (tr ++ [RemoteCall.modify g (headChunk l)]) := by
  rw [modifyLoop, dif_neg h, hr]

/-! ### Structure of the batch list -/

theorem batchParams_join : ∀ l : List Parameter, (batchParams l).flatten = l := by
  refine chunk_induction _ ?_ ?_
  · simp [batchParams_nil]
  · intro l h ih
    rw [batchParams_cons l h]
    simp only [List.flatten_cons, ih]
    exact headChunk_append_restChunk l

theorem batchParams_mem_bounds :
    ∀ l : List Parameter, ∀ b ∈ batchParams l, b ≠ [] ∧ b.length ≤ maxParams := by
  refine chunk_induction _ ?_ ?_
  · simp [batchParams_nil]
  · intro l h ih b hb
    rw [batchParams_cons l h] at hb
    rcases List.mem_cons.mp hb with rfl | hb2
    · exact ⟨headChunk_ne_nil l h, headChunk_length_le l⟩
    · exact ih b hb2

theorem batchParams_count :
    ∀ l : List Parameter,
      (batchParams l).length = (l.length + maxParams - 1) / maxParams := by
  refine chunk_induction _ ?_ ?_
  · simp [batchParams_nil, maxParams]
  · intro l h ih
    rw [batchParams_cons l h]
    simp only [List.length_cons, ih]
    have hp : 0 < l.length := List.length_pos.mpr h
    by_cases hc : l.length ≤ maxParams
    · rw [(restChunk_eq_nil_iff l).mpr hc]
      simp only [List.length_nil, maxParams] at *
      omega
    · have h2 : (restChunk l).length = l.length - maxParams := by
        rw [restChunk, if_neg hc, List.length_drop]
      rw [h2]
      simp only [maxParams] at *
      omega

theorem batchParams_dropLast :
    ∀ l : List Parameter, ∀ b ∈ (batchParams l).dropLast, b.length = maxParams := by
  refine chunk_induction _ ?_ ?_
  · simp [batchParams_nil]
  · intro l h ih b hb
    rw [batchParams_cons l h] at hb
    by_cases hc : l.length ≤ maxParams
    · rw [(restChunk_eq_nil_iff l).mpr hc, batchParams_nil] at hb
      simp at hb
    · have hrn : restChunk l ≠ [] := by
        rw [Ne, restChunk_eq_nil_iff]
        exact hc
      rw [batchParams_cons _ hrn, List.dropLast_cons₂] at hb
      rcases List.mem_cons.mp hb with rfl | hb2
      · exact headChunk_length_of_gt l hc
      · refine ih b ?_
        rw [batchParams_cons _ hrn]
        exact hb2

/-! ### Shape of the traces the loops emit -/

theorem resetLoop_shape (env : Env) (fuel : Nat) (g : String) :
    ∀ (l : List Parameter) (tr : List RemoteCall),
      ∃ ext res, resetLoop env fuel g l tr = (tr ++ ext, res) ∧
        ResetCalls g (batchParams l) ext := by
  refine chunk_induction
    (fun l => ∀ tr, ∃ ext res, resetLoop env fuel g l tr = (tr ++ ext, res) ∧
      ResetCalls g (batchParams l) ext) ?_ ?_
  · intro tr
    refine ⟨[], none, ?_, ?_⟩
    · simp [resetLoop_nil]
    · rw [batchParams_nil]
      exact ResetCalls.done []
  · intro l h ih tr
    obtain ⟨k, hk⟩ := retryCall_trace env (RemoteCall.reset g (headChunk l))
      "InvalidDBParameterGroupState" " has pending changes" fuel tr
    rcases hr : retryCall env (RemoteCall.reset g (headChunk l))
        "InvalidDBParameterGroupState" " has pending changes" fuel tr with ⟨tr2, res⟩
    rw [hr] at hk
    have hk2 : tr2 = tr ++ List.replicate (k + 1) (RemoteCall.reset g (headChunk l)) := hk
    cases res with
    | some e =>
      refine ⟨List.replicate (k + 1) (RemoteCall.reset g (headChunk l)),
        some (ProviderErr.wrapped "Error resetting Neptune Parameter Group" e), ?_, ?_⟩
      · rw [resetLoop_fail env fuel g l tr tr2 e h hr, hk2]
      · rw [batchParams_cons l h]
        have hstep := ResetCalls.step (g := g) (headChunk l) k (batchParams (restChunk l)) []
          (ResetCalls.done _)
        simpa using hstep
    | none =>
      obtain ⟨ext2, res2, heq2, hcalls2⟩ := ih tr2
      refine ⟨List.replicate (k + 1) (RemoteCall.reset g (headChunk l)) ++ ext2, res2, ?_, ?_⟩
      · rw [resetLoop_step env fuel g l tr tr2 h hr, heq2, hk2]
        simp [List.append_assoc]
      · rw [batchParams_cons l h]
        exact ResetCalls.step _ k _ _ hcalls2

theorem modifyLoop_shape (env : Env) (g : String) :
    ∀ (l : List Parameter) (tr : List RemoteCall),
      ∃ ext res, modifyLoop env g l tr = (tr ++ ext, res) ∧
        ModifyCalls g (batchParams l) ext := by
  refine chunk_induction
    (fun l => ∀ tr, ∃ ext res, modifyLoop env g l tr = (tr ++ ext, res) ∧
      ModifyCalls g (batchParams l) ext) ?_ ?_
  · intro tr
    refine ⟨[], none, ?_, ?_⟩
    · simp [modifyLoop_nil]
    · rw [batchParams_nil]
      exact ModifyCalls.done []
  · intro l h ih tr
    rcases hr : env.respond tr.length with e | v
    · refine ⟨[RemoteCall.modify g (headChunk l)],
        some (ProviderErr.wrapped "Error modifying Neptune Parameter Group" e), ?_, ?_⟩
      · rw [modifyLoop_fail env g l tr e h hr]
      · rw [batchParams_cons l h]
        exact ModifyCalls.step _ _ [] (ModifyCalls.done _)
    · obtain ⟨ext2, res2, heq2, hcalls2⟩ := ih (tr ++ [RemoteCall.modify g (headChunk l)])
      refine ⟨RemoteCall.modify g (headChunk l) :: ext2, res2, ?_, ?_⟩
      · rw [modifyLoop_step env g l tr v h hr, heq2]
        simp
      · rw [batchParams_cons l h]
        exact ModifyCalls.step _ _ _ hcalls2

theorem ResetCalls_mem (g : String) {bs : List (List Parameter)} {ext : List RemoteCall}
    (h : ResetCalls g bs ext) : ∀ c ∈ ext, ∃ b ∈ bs, c = RemoteCall.reset g b := by
  induction h with
  | done bs => intro c hc; simp at hc
  | step b k bs rest hr ih =>
    intro c hc
    rcases List.mem_append.mp hc with hc1 | hc2
    · exact ⟨b, List.mem_cons_self b bs, List.eq_of_mem_replicate hc1⟩
    · obtain ⟨b2, hb2, hcb⟩ := ih c hc2
      exact ⟨b2, List.mem_cons_of_mem _ hb2, hcb⟩

theorem ModifyCalls_mem (g : String) {bs : List (List Parameter)} {ext : List RemoteCall}
    (h : ModifyCalls g bs ext) : ∀ c ∈ ext, ∃ b ∈ bs, c = RemoteCall.modify g b := by
  induction h with
  | done bs => intro c hc; simp at hc
  | step b bs rest hr ih =>
    intro c hc
    rcases List.mem_cons.mp hc with rfl | hc2
    · exact ⟨b, List.mem_cons_self b bs, rfl⟩
    · obtain ⟨b2, hb2, hcb⟩ := ih c hc2
      exact ⟨b2, List.mem_cons_of_mem _ hb2, hcb⟩

theorem read_shape (env : Env) (st : ResState) (tr : List RemoteCall) :
    ∃ ext2 st2 res,
      resourceAwsNeptuneParameterGroupRead env st tr =
        (st2, tr ++ (RemoteCall.describeGroup st.id :: ext2), res) ∧
      ∀ c ∈ ext2, isDescribeCall c = true := by
  rcases h : env.respond tr.length with e | names
  · by_cases hnf : isAWSErr e ErrCodeDBParameterGroupNotFoundFault ""
    · refine ⟨[], { id := "" }, none, ?_, by simp⟩
      simp [resourceAwsNeptuneParameterGroupRead, h, hnf]
    · refine ⟨[], st, some (ProviderErr.aws e), ?_, by simp⟩
      simp [resourceAwsNeptuneParameterGroupRead, h, hnf]
  · by_cases hok : names.length = 1 ∧ names.headD "" = st.id
    · obtain ⟨hok1, hok2⟩ := hok
      have hok2b : names.head?.getD "" = st.id := by simpa using hok2
      rcases h2 : env.respond (tr.length + 1) with e2 | v2
      · refine ⟨[RemoteCall.describeParams st.id], st, some (ProviderErr.aws e2), ?_,
          by simp [isDescribeCall]⟩
        simp [resourceAwsNeptuneParameterGroupRead, h, hok1, hok2b, h2]
      · refine ⟨[RemoteCall.describeParams st.id], st, none, ?_, by simp [isDescribeCall]⟩
        simp [resourceAwsNeptuneParameterGroupRead, h, hok1, hok2b, h2]
    · refine ⟨[], st, some (ProviderErr.localErr "Unable to find Parameter Group"), ?_, by simp⟩
      simp only [resourceAwsNeptuneParameterGroupRead, h]
      simp
      intro h1 h2
      exact absurd ⟨h1, by simpa using h2⟩ hok

/-! ### Membership in the set difference -/

theorem mem_setDifference (a b : List Parameter) (p : Parameter) :
    p ∈ setDifference a b ↔
      p ∈ a ∧ ∀ q ∈ b,
        resourceAwsNeptuneParameterHash q ≠ resourceAwsNeptuneParameterHash p := by
  simp [setDifference, List.mem_filter]

theorem setDifference_eq_nil (a b : List Parameter)
    (h : ∀ p ∈ a, ∃ q ∈ b,
      resourceAwsNeptuneParameterHash q = resourceAwsNeptuneParameterHash p) :
    setDifference a b = [] := by
  rw [List.eq_nil_iff_forall_not_mem]
  intro p hp
  rw [mem_setDifference] at hp
  obtain ⟨q, hq, hqp⟩ := h p hp.1
  exact hp.2 q hq hqp

theorem setDifference_self (a : List Parameter) : setDifference a a = [] :=
  setDifference_eq_nil a a fun p hp => ⟨p, hp, rfl⟩

theorem forall₂_mem_left {R : Parameter → Parameter → Prop} :
    ∀ {o n : List Parameter}, List.Forall₂ R o n → ∀ p ∈ o, ∃ q ∈ n, R p q := by
  intro o n h
  induction h with
  | nil => intro p hp; simp at hp
  | cons hr ht ih =>
    intro p hp
    rcases List.mem_cons.mp hp with rfl | hp2
    · exact ⟨_, List.mem_cons_self _ _, hr⟩
    · obtain ⟨q, hq, hrq⟩ := ih p hp2
      exact ⟨q, List.mem_cons_of_mem _ hq, hrq⟩

theorem resetLoop_okEnv (fuel : Nat) (g : String) :
    ∀ (l : List Parameter) (tr : List RemoteCall),
      resetLoop okEnv fuel g l tr =
        (tr ++ (batchParams l).map (RemoteCall.reset g), none) := by
  refine chunk_induction
    (fun l => ∀ tr, resetLoop okEnv fuel g l tr =
      (tr ++ (batchParams l).map (RemoteCall.reset g), none)) ?_ ?_
  · intro tr
    simp [resetLoop_nil, batchParams_nil]
  · intro l h ih tr
    have hr := retryCall_ok okEnv (RemoteCall.reset g (headChunk l))
      "InvalidDBParameterGroupState" " has pending changes" fuel tr [] rfl
    rw [resetLoop_step okEnv fuel g l tr _ h hr, ih, batchParams_cons l h]
    simp [List.append_assoc]

theorem modifyLoop_okEnv (g : String) :
    ∀ (l : List Parameter) (tr : List RemoteCall),
      modifyLoop okEnv g l tr =
        (tr ++ (batchParams l).map (RemoteCall.modify g), none) := by
  refine chunk_induction
    (fun l => ∀ tr, modifyLoop okEnv g l tr =
      (tr ++ (batchParams l).map (RemoteCall.modify g), none)) ?_ ?_
  · intro tr
    simp [modifyLoop_nil, batchParams_nil]
  · intro l h ih tr
    rw [modifyLoop_step okEnv g l tr [] h rfl, ih, batchParams_cons l h]
    simp [List.append_assoc]

/-! ### The claims -/

/-- C1 (counterexample): the diff does not compare parameters by the identity
pair `(name, lowercased value)`.  The two singleton collections below are
deduplicated under either notion of identity and differ in their `(name,
lowercased value)` pairs, so the claimed `toRemove` is the whole old
collection; but both parameters produce the set key `"a-b-c-"`, so the update
computes an empty `toRemove` (and an empty `toAdd`): no call would be issued
and the old parameter would never be removed. -/
theorem C1_counterexample :
    setDifference [Parameter.mk "a-b" "c" "immediate"]
        [Parameter.mk "a" "b-c" "immediate"] = [] ∧
    specToRemove [Parameter.mk "a-b" "c" "immediate"]
        [Parameter.mk "a" "b-c" "immediate"] = [Parameter.mk "a-b" "c" "immediate"] ∧
    setDifference [Parameter.mk "a-b" "c" "immediate"]
        [Parameter.mk "a" "b-c" "immediate"] ≠
      specToRemove [Parameter.mk "a-b" "c" "immediate"]
        [Parameter.mk "a" "b-c" "immediate"] := by
  decide

/-- C1 (amended): with parameter identity taken as the set key the code
actually computes — the string `name ++ "-" ++ lowercase(value) ++ "-"` of
`resourceAwsNeptuneParameterHash`, which conflates distinct `(name,
lowercased value)` pairs whose concatenations coincide — the update diff is
exact: `toRemove` holds exactly the elements of `old` whose key is absent
from `new`, `toAdd` exactly the elements of `new` whose key is absent from
`old`, an element of `old` whose key also occurs in `new` occurs in neither
output, and `diff(A, A)` is empty on both sides for every collection `A`. -/
theorem C1_diff_exact (o n : List Parameter) :
    (∀ p, p ∈ setDifference o n ↔
      p ∈ o ∧ ∀ q ∈ n,
        resourceAwsNeptuneParameterHash q ≠ resourceAwsNeptuneParameterHash p) ∧
    (∀ p, p ∈ setDifference n o ↔
      p ∈ n ∧ ∀ q ∈ o,
        resourceAwsNeptuneParameterHash q ≠ resourceAwsNeptuneParameterHash p) ∧
    (∀ p ∈ o, (∃ q ∈ n,
        resourceAwsNeptuneParameterHash q = resourceAwsNeptuneParameterHash p) →
      p ∉ setDifference o n ∧ p ∉ setDifference n o) ∧
    setDifference o o = [] := by
  refine ⟨mem_setDifference o n, mem_setDifference n o, ?_, setDifference_self o⟩
  intro p hp ⟨q, hq, hqp⟩
  constructor
  · rw [mem_setDifference]
    intro ⟨_, habs⟩
    exact habs q hq hqp
  · rw [mem_setDifference]
    intro ⟨_, habs⟩
    exact habs p hp rfl

/-- C1 (witness): the amended theorem at a concrete pair of collections. -/
theorem C1_diff_exact_witness :
    (∀ p, p ∈ setDifference [Parameter.mk "alpha" "1" "immediate"]
        [Parameter.mk "beta" "2" "immediate"] ↔
      p ∈ [Parameter.mk "alpha" "1" "immediate"] ∧
        ∀ q ∈ [Parameter.mk "beta" "2" "immediate"],
          resourceAwsNeptuneParameterHash q ≠ resourceAwsNeptuneParameterHash p) ∧
    (∀ p, p ∈ setDifference [Parameter.mk "beta" "2" "immediate"]
        [Parameter.mk "alpha" "1" "immediate"] ↔
      p ∈ [Parameter.mk "beta" "2" "immediate"] ∧
        ∀ q ∈ [Parameter.mk "alpha" "1" "immediate"],
          resourceAwsNeptuneParameterHash q ≠ resourceAwsNeptuneParameterHash p) ∧
    (∀ p ∈ [Parameter.mk "alpha" "1" "immediate"], (∃ q ∈ [Parameter.mk "beta" "2" "immediate"],
        resourceAwsNeptuneParameterHash q = resourceAwsNeptuneParameterHash p) →
      p ∉ setDifference [Parameter.mk "alpha" "1" "immediate"]
          [Parameter.mk "beta" "2" "immediate"] ∧
        p ∉ setDifference [Parameter.mk "beta" "2" "immediate"]
          [Parameter.mk "alpha" "1" "immediate"]) ∧
    setDifference [Parameter.mk "alpha" "1" "immediate"]
      [Parameter.mk "alpha" "1" "immediate"] = [] :=
  C1_diff_exact [Parameter.mk "alpha" "1" "immediate"] [Parameter.mk "beta" "2" "immediate"]

/-- C4: parameter identity is invariant under value-case changes and under
`apply_method` changes: for a fixed name, values with equal lowercasings give
the same set key whatever the apply methods are, and a diff between two
collections that are pointwise equal up to value case and apply method is
empty on both sides. -/
theorem C4_identity_invariance :
    (∀ (nm v w am1 am2 : String), strToLower v = strToLower w →
      resourceAwsNeptuneParameterHash (Parameter.mk nm v am1) =
        resourceAwsNeptuneParameterHash (Parameter.mk nm w am2)) ∧
    (∀ o n : List Parameter,
      List.Forall₂ (fun p q => p.name = q.name ∧ strToLower p.value = strToLower q.value) o n →
      setDifference o n = [] ∧ setDifference n o = []) := by
  constructor
  · intro nm v w am1 am2 hvw
    simp [resourceAwsNeptuneParameterHash, hvw]
  · intro o n hf
    have hkey : ∀ p q : Parameter, p.name = q.name → strToLower p.value = strToLower q.value →
        resourceAwsNeptuneParameterHash q = resourceAwsNeptuneParameterHash p := by
      intro p q h1 h2
      simp [resourceAwsNeptuneParameterHash, h1, h2]
    constructor
    · refine setDifference_eq_nil o n ?_
      intro p hp
      obtain ⟨q, hq, hr1, hr2⟩ := forall₂_mem_left hf p hp
      exact ⟨q, hq, hkey p q hr1 hr2⟩
    · refine setDifference_eq_nil n o ?_
      intro p hp
      obtain ⟨q, hq, hr1, hr2⟩ := forall₂_mem_left hf.flip p hp
      exact ⟨q, hq, hkey p q hr1.symm hr2.symm⟩

/-- C4 (witness): a case-only value change combined with an `apply_method`
change is invisible to the diff. -/
theorem C4_identity_invariance_witness :
    (strToLower "X" = strToLower "x" ∧
      resourceAwsNeptuneParameterHash (Parameter.mk "p" "X" "immediate") =
        resourceAwsNeptuneParameterHash (Parameter.mk "p" "x" "pending-reboot")) ∧
    (setDifference [Parameter.mk "p" "X" "immediate"]
        [Parameter.mk "p" "x" "pending-reboot"] = [] ∧
      setDifference [Parameter.mk "p" "x" "pending-reboot"]
        [Parameter.mk "p" "X" "immediate"] = []) := by
  refine ⟨⟨by decide, ?_⟩, ?_⟩
  · exact C4_identity_invariance.1 "p" "X" "x" "immediate" "pending-reboot" (by decide)
  · exact C4_identity_invariance.2 [Parameter.mk "p" "X" "immediate"]
      [Parameter.mk "p" "x" "pending-reboot"]
      (List.Forall₂.cons ⟨rfl, by decide⟩ List.Forall₂.nil)

/-- C2: the batching of the update loops partitions the ordered parameter
sequence: the concatenation of the batches is the input in its original
order, every batch has between 1 and `maxParams` elements, only the last
batch may be shorter than `maxParams`, the number of batches is
`⌈length / maxParams⌉`, the empty sequence gives zero batches, the loops
issue no remote call on an empty list, and under an always-succeeding remote
service the loops issue exactly one call per batch, in batch order. -/
theorem C2_batching (l : List Parameter) :
    (batchParams l).flatten = l ∧
    (∀ b ∈ batchParams l, b ≠ [] ∧ b.length ≤ maxParams) ∧
    (∀ b ∈ (batchParams l).dropLast, b.length = maxParams) ∧
    (batchParams l).length = (l.length + maxParams - 1) / maxParams ∧
    batchParams [] = [] ∧
    (∀ (env : Env) (fuel : Nat) (g : String) (tr : List RemoteCall),
      resetLoop env fuel g [] tr = (tr, none) ∧ modifyLoop env g [] tr = (tr, none)) ∧
    (∀ (fuel : Nat) (g : String) (tr : List RemoteCall),
      resetLoop okEnv fuel g l tr = (tr ++ (batchParams l).map (RemoteCall.reset g), none) ∧
      modifyLoop okEnv g l tr = (tr ++ (batchParams l).map (RemoteCall.modify g), none)) := by
  refine ⟨batchParams_join l, batchParams_mem_bounds l, batchParams_dropLast l,
    batchParams_count l, batchParams_nil, ?_, ?_⟩
  · intro env fuel g tr
    exact ⟨resetLoop_nil env fuel g tr, modifyLoop_nil env g tr⟩
  · intro fuel g tr
    exact ⟨resetLoop_okEnv fuel g l tr, modifyLoop_okEnv g l tr⟩

/-! ### Case analysis of a whole update run -/

theorem updatePipeline_no_change (env : Env) (fuel : Nat) (g : String)
    (o n : List Parameter) (tr : List RemoteCall)
    (hch : hasChangeParameter o n = false) :
    updatePipeline env fuel g o n tr = (tr, none) := by
  unfold updatePipeline
  simp [hch]

theorem updatePipeline_reset_err (env : Env) (fuel : Nat) (g : String)
    (o n : List Parameter) (tr tr1 : List RemoteCall) (e : ProviderErr)
    (hch : hasChangeParameter o n = true)
    (hr : resetLoop env fuel g (setDifference o n) tr = (tr1, some e)) :
    updatePipeline env fuel g o n tr = (tr1, some e) := by
  unfold updatePipeline
  simp [hch, hr]

theorem updatePipeline_reset_ok (env : Env) (fuel : Nat) (g : String)
    (o n : List Parameter) (tr tr1 : List RemoteCall)
    (hch : hasChangeParameter o n = true)
    (hr : resetLoop env fuel g (setDifference o n) tr = (tr1, none)) :
    updatePipeline env fuel g o n tr = modifyLoop env g (setDifference n o) tr1 := by
  unfold updatePipeline
  simp [hch, hr]

theorem update_of_pipeline_err (env : Env) (fuel : Nat) (g : String)
    (o n : List Parameter) (st : ResState) (tr tr1 : List RemoteCall) (e : ProviderErr)
    (h : updatePipeline env fuel g o n tr = (tr1, some e)) :
    resourceAwsNeptuneParameterGroupUpdate env fuel g o n st tr = (st, tr1, some e) := by
  unfold resourceAwsNeptuneParameterGroupUpdate
  rw [h]

theorem update_of_pipeline_ok (env : Env) (fuel : Nat) (g : String)
    (o n : List Parameter) (st : ResState) (tr tr1 : List RemoteCall)
    (h : updatePipeline env fuel g o n tr = (tr1, none)) :
    resourceAwsNeptuneParameterGroupUpdate env fuel g o n st tr =
      resourceAwsNeptuneParameterGroupRead env st tr1 := by
  unfold resourceAwsNeptuneParameterGroupUpdate
  rw [h]

theorem update_cases (env : Env) (fuel : Nat) (g : String) (o n : List Parameter)
    (st : ResState) (tr : List RemoteCall) :
    ∃ extR extM, ResetCalls g (batchParams (setDifference o n)) extR ∧
      ModifyCalls g (batchParams (setDifference n o)) extM ∧
      ((∃ e, resourceAwsNeptuneParameterGroupUpdate env fuel g o n st tr =
          (st, tr ++ extR ++ extM, some e)) ∨
        (∃ extD st2 res, resourceAwsNeptuneParameterGroupUpdate env fuel g o n st tr =
            (st2, tr ++ extR ++ extM ++ (RemoteCall.describeGroup st.id :: extD), res) ∧
          (∀ c ∈ extD, isDescribeCall c = true))) := by
  cases hch : hasChangeParameter o n with
  | false =>
    have hupd := update_of_pipeline_ok env fuel g o n st tr tr
      (updatePipeline_no_change env fuel g o n tr hch)
    obtain ⟨extD, st2, res, heqD, hD⟩ := read_shape env st tr
    refine ⟨[], [], ResetCalls.done _, ModifyCalls.done _,
      Or.inr ⟨extD, st2, res, ?_, hD⟩⟩
    rw [hupd, heqD]
    simp
  | true =>
    obtain ⟨extR, resR, heqR, hcallsR⟩ := resetLoop_shape env fuel g (setDifference o n) tr
    cases resR with
    | some e =>
      have hupd := update_of_pipeline_err env fuel g o n st tr (tr ++ extR) e
        (updatePipeline_reset_err env fuel g o n tr (tr ++ extR) e hch heqR)
      refine ⟨extR, [], hcallsR, ModifyCalls.done _, Or.inl ⟨e, ?_⟩⟩
      rw [hupd]
      simp
    | none =>
      have hpipe0 := updatePipeline_reset_ok env fuel g o n tr (tr ++ extR) hch heqR
      obtain ⟨extM, resM, heqM, hcallsM⟩ := modifyLoop_shape env g (setDifference n o) (tr ++ extR)
      cases resM with
      | some e =>
        have hupd := update_of_pipeline_err env fuel g o n st tr (tr ++ extR ++ extM) e
          (hpipe0.trans heqM)
        refine ⟨extR, extM, hcallsR, hcallsM, Or.inl ⟨e, ?_⟩⟩
        rw [hupd]
      | none =>
        have hupd := update_of_pipeline_ok env fuel g o n st tr (tr ++ extR ++ extM)
          (hpipe0.trans heqM)
        obtain ⟨extD, st2, res, heqD, hD⟩ := read_shape env st (tr ++ extR ++ extM)
        refine ⟨extR, extM, hcallsR, hcallsM, Or.inr ⟨extD, st2, res, ?_, hD⟩⟩
        rw [hupd, heqD]

/-- C3: in every update run the remote calls issued after `tr` are, in
order: reset calls walking the removal batches batch-by-batch, then modify
calls walking the addition batches batch-by-batch, then only describe
(read-back) calls — every reset call precedes every modify call and the two
kinds are never interleaved. -/
theorem C3_removals_before_additions (env : Env) (fuel : Nat) (g : String)
    (o n : List Parameter) (st : ResState) (tr : List RemoteCall) :
    ∃ extR extM extD st2 res,
      resourceAwsNeptuneParameterGroupUpdate env fuel g o n st tr =
        (st2, tr ++ extR ++ extM ++ extD, res) ∧
      ResetCalls g (batchParams (setDifference o n)) extR ∧
      ModifyCalls g (batchParams (setDifference n o)) extM ∧
      (∀ c ∈ extR, ∃ b, c = RemoteCall.reset g b) ∧
      (∀ c ∈ extM, ∃ b, c = RemoteCall.modify g b) ∧
      (∀ c ∈ extD, isDescribeCall c = true) := by
  obtain ⟨extR, extM, hR, hM, hcase⟩ := update_cases env fuel g o n st tr
  rcases hcase with ⟨e, heq⟩ | ⟨extD, st2, res, heq, hD⟩
  · refine ⟨extR, extM, [], st, some e, by simpa using heq, hR, hM, ?_, ?_, by simp⟩
    · intro c hc
      obtain ⟨b, _, hb⟩ := ResetCalls_mem g hR c hc
      exact ⟨b, hb⟩
    · intro c hc
      obtain ⟨b, _, hb⟩ := ModifyCalls_mem g hM c hc
      exact ⟨b, hb⟩
  · refine ⟨extR, extM, RemoteCall.describeGroup st.id :: extD, st2, res, heq, hR, hM, ?_, ?_, ?_⟩
    · intro c hc
      obtain ⟨b, _, hb⟩ := ResetCalls_mem g hR c hc
      exact ⟨b, hb⟩
    · intro c hc
      obtain ⟨b, _, hb⟩ := ModifyCalls_mem g hM c hc
      exact ⟨b, hb⟩
    · intro c hc
      rcases List.mem_cons.mp hc with rfl | hc2
      · rfl
      · exact hD c hc2

/-- C6 (counterexample): when the only removal batch fails with a
non-retryable error, the update surfaces the error immediately — the trace
holds the single reset call and no describe call at all, so no read-back is
performed after the partial failure, contradicting the claim that a read
happens even then. -/
theorem C6_counterexample :
    resourceAwsNeptuneParameterGroupUpdate
        (Env.mk fun _ => Except.error (AwsErr.mk "AccessDenied" "denied")) 3 "grp"
        [Parameter.mk "a" "b" "immediate"] [] (ResState.mk "grp") [] =
      (ResState.mk "grp", [RemoteCall.reset "grp" [Parameter.mk "a" "b" "immediate"]],
        some (ProviderErr.wrapped "Error resetting Neptune Parameter Group"
          (AwsErr.mk "AccessDenied" "denied"))) ∧
    ∀ c ∈ [RemoteCall.reset "grp" [Parameter.mk "a" "b" "immediate"]],
      isDescribeCall c = false := by
  constructor
  · have hfatal : isAWSErr (AwsErr.mk "AccessDenied" "denied")
        "InvalidDBParameterGroupState" " has pending changes" = false := by decide
    have hr := retryCall_fatal (Env.mk fun _ => Except.error (AwsErr.mk "AccessDenied" "denied"))
      (RemoteCall.reset "grp" (headChunk [Parameter.mk "a" "b" "immediate"]))
      "InvalidDBParameterGroupState" " has pending changes" 3 []
      (AwsErr.mk "AccessDenied" "denied") rfl hfatal
    have hloop := resetLoop_fail
      (Env.mk fun _ => Except.error (AwsErr.mk "AccessDenied" "denied")) 3 "grp"
      [Parameter.mk "a" "b" "immediate"] [] _ _ (by decide) hr
    unfold resourceAwsNeptuneParameterGroupUpdate updatePipeline
    rw [show hasChangeParameter [Parameter.mk "a" "b" "immediate"] [] = true from by decide]
    simp only [if_true]
    rw [show setDifference [Parameter.mk "a" "b" "immediate"] [] =
      [Parameter.mk "a" "b" "immediate"] from by decide]
    rw [hloop]
    simp [headChunk, maxParams]
  · decide

/-- C6 (amended): the read-back is performed exactly when the
removal/addition pipeline surfaces no error: on pipeline success the update
goes on to issue the describe call of the read, while on a batch failure the
update surfaces the error with the state untouched and no describe call is
ever issued in that run. -/
theorem C6_read_after_pipeline (env : Env) (fuel : Nat) (g : String)
    (o n : List Parameter) (st : ResState) (tr : List RemoteCall) :
    ∃ st2 ext res,
      resourceAwsNeptuneParameterGroupUpdate env fuel g o n st tr = (st2, tr ++ ext, res) ∧
      (((∃ e, res = some e) ∧ st2 = st ∧ ∀ c ∈ ext, isDescribeCall c = false) ∨
        RemoteCall.describeGroup st.id ∈ ext) := by
  obtain ⟨extR, extM, hR, hM, hcase⟩ := update_cases env fuel g o n st tr
  rcases hcase with ⟨e, heq⟩ | ⟨extD, st2, res, heq, hD⟩
  · refine ⟨st, extR ++ extM, some e, by simpa [List.append_assoc] using heq,
      Or.inl ⟨⟨e, rfl⟩, rfl, ?_⟩⟩
    intro c hc
    rcases List.mem_append.mp hc with hc1 | hc2
    · obtain ⟨b, _, rfl⟩ := ResetCalls_mem g hR c hc1
      rfl
    · obtain ⟨b, _, rfl⟩ := ModifyCalls_mem g hM c hc2
      rfl
  · refine ⟨st2, extR ++ extM ++ (RemoteCall.describeGroup st.id :: extD), res,
      by simpa [List.append_assoc] using heq, Or.inr ?_⟩
    simp

/-- C9: when the old and new parameter collections are equal by full
collection-identity comparison, the update issues no reset and no modify
call: it is exactly the final read-back, and the read-back issues only
describe calls. -/
theorem C9_no_change_no_calls (env : Env) (fuel : Nat) (g : String)
    (o n : List Parameter) (st : ResState) (tr : List RemoteCall)
    (h : sameByIdentity o n = true) :
    resourceAwsNeptuneParameterGroupUpdate env fuel g o n st tr =
      resourceAwsNeptuneParameterGroupRead env st tr ∧
    ∃ ext st2 res,
      resourceAwsNeptuneParameterGroupRead env st tr = (st2, tr ++ ext, res) ∧
      ∀ c ∈ ext, isDescribeCall c = true := by
  constructor
  · unfold resourceAwsNeptuneParameterGroupUpdate updatePipeline
    rw [show hasChangeParameter o n = false from by simp [hasChangeParameter, h]]
    simp
  · obtain ⟨extD, st2, res, heqD, hD⟩ := read_shape env st tr
    refine ⟨RemoteCall.describeGroup st.id :: extD, st2, res, heqD, ?_⟩
    intro c hc
    rcases List.mem_cons.mp hc with rfl | hc2
    · rfl
    · exact hD c hc2

/-- C9 (witness): an update whose collections differ only in value case and
apply method issues no mutation call — it is exactly the read-back. -/
theorem C9_no_change_no_calls_witness :
    resourceAwsNeptuneParameterGroupUpdate okEnv 3 "grp"
        [Parameter.mk "a" "b" "immediate"] [Parameter.mk "a" "B" "pending-reboot"]
        (ResState.mk "grp") [] =
      resourceAwsNeptuneParameterGroupRead okEnv (ResState.mk "grp") [] ∧
    ∃ ext st2 res,
      resourceAwsNeptuneParameterGroupRead okEnv (ResState.mk "grp") [] = (st2, [] ++ ext, res) ∧
      ∀ c ∈ ext, isDescribeCall c = true :=
  C9_no_change_no_calls okEnv 3 "grp" [Parameter.mk "a" "b" "immediate"]
    [Parameter.mk "a" "B" "pending-reboot"] (ResState.mk "grp") [] (by decide)

/-- C5: the reset path retries exactly the transient conflict — code
`InvalidDBParameterGroupState` with message containing
`" has pending changes"` — surfacing that error only when the attempt budget
(the 30-second `resource.Retry` window, abstracted as `fuel + 1` attempts) is
exhausted, and recovering silently when an attempt succeeds within the
budget; any other reset failure is surfaced after a single call; the modify
path never retries and surfaces any failure after a single call; in each
failing case the returned trace ends at the failing batch, so no remaining
batch of the pipeline is issued. -/
theorem C5_retry_policy (env : Env) (fuel : Nat) (g : String)
    (l : List Parameter) (tr : List RemoteCall) (e : AwsErr) :
    (env.respond tr.length = Except.error e →
      isAWSErr e "InvalidDBParameterGroupState" " has pending changes" = false → l ≠ [] →
      resetLoop env fuel g l tr =
        (tr ++ [RemoteCall.reset g (headChunk l)],
          some (ProviderErr.wrapped "Error resetting Neptune Parameter Group" e))) ∧
    ((∀ k, env.respond k = Except.error e) →
      isAWSErr e "InvalidDBParameterGroupState" " has pending changes" = true → l ≠ [] →
      resetLoop env fuel g l tr =
        (tr ++ List.replicate (fuel + 1) (RemoteCall.reset g (headChunk l)),
          some (ProviderErr.wrapped "Error resetting Neptune Parameter Group" e))) ∧
    (∀ (j : Nat) (v : List String), j ≤ fuel → l ≠ [] → l.length ≤ maxParams →
      (∀ k, k < j → env.respond (tr.length + k) = Except.error e) →
      isAWSErr e "InvalidDBParameterGroupState" " has pending changes" = true →
      env.respond (tr.length + j) = Except.ok v →
      resetLoop env fuel g l tr =
        (tr ++ List.replicate (j + 1) (RemoteCall.reset g (headChunk l)), none)) ∧
    (env.respond tr.length = Except.error e → l ≠ [] →
      modifyLoop env g l tr =
        (tr ++ [RemoteCall.modify g (headChunk l)],
          some (ProviderErr.wrapped "Error modifying Neptune Parameter Group" e))) := by
  refine ⟨?_, ?_, ?_, ?_⟩
  · intro h hcl hl
    exact resetLoop_fail env fuel g l tr _ e hl
      (retryCall_fatal env _ _ _ fuel tr e h hcl)
  · intro h hcl hl
    exact resetLoop_fail env fuel g l tr _ e hl
      (retryCall_exhaust env _ _ _ e h hcl fuel tr)
  · intro j v hj hl hlen hk hcl hok
    have hr := retryCall_recovers env (RemoteCall.reset g (headChunk l))
      "InvalidDBParameterGroupState" " has pending changes" e hcl j fuel tr v hj hk hok
    rw [resetLoop_step env fuel g l tr _ hl hr,
      (restChunk_eq_nil_iff l).mpr hlen, resetLoop_nil]
  · intro h hl
    exact modifyLoop_fail env g l tr e hl h

/-- C5 (witness): the four retry-policy conjuncts at concrete inputs: an
unclassified reset error surfaces after one call; a persistent transient
conflict surfaces after the budget's three attempts; a transient conflict
that clears on the second attempt ends in success with two calls; a modify
error surfaces after one call. -/
theorem C5_retry_policy_witness :
    (resetLoop (Env.mk fun _ => Except.error (AwsErr.mk "Throttling" "rate exceeded"))
        2 "g" [Parameter.mk "a" "b" "immediate"] [] =
      ([RemoteCall.reset "g" (headChunk [Parameter.mk "a" "b" "immediate"])],
        some (ProviderErr.wrapped "Error resetting Neptune Parameter Group"
          (AwsErr.mk "Throttling" "rate exceeded")))) ∧
    (resetLoop (Env.mk fun _ => Except.error
          (AwsErr.mk "InvalidDBParameterGroupState" "Group has pending changes"))
        2 "g" [Parameter.mk "a" "b" "immediate"] [] =
      (List.replicate 3 (RemoteCall.reset "g" (headChunk [Parameter.mk "a" "b" "immediate"])),
        some (ProviderErr.wrapped "Error resetting Neptune Parameter Group"
          (AwsErr.mk "InvalidDBParameterGroupState" "Group has pending changes")))) ∧
    (resetLoop (Env.mk fun k => if k < 1 then Except.error
          (AwsErr.mk "InvalidDBParameterGroupState" "Group has pending changes")
        else Except.ok [])
        2 "g" [Parameter.mk "a" "b" "immediate"] [] =
      (List.replicate 2 (RemoteCall.reset "g" (headChunk [Parameter.mk "a" "b" "immediate"])),
        none)) ∧
    (modifyLoop (Env.mk fun _ => Except.error (AwsErr.mk "Throttling" "rate exceeded"))
        "g" [Parameter.mk "a" "b" "immediate"] [] =
      ([RemoteCall.modify "g" (headChunk [Parameter.mk "a" "b" "immediate"])],
        some (ProviderErr.wrapped "Error modifying Neptune Parameter Group"
          (AwsErr.mk "Throttling" "rate exceeded")))) := by
  refine ⟨?_, ?_, ?_, ?_⟩
  · have h := (C5_retry_policy
      (Env.mk fun _ => Except.error (AwsErr.mk "Throttling" "rate exceeded"))
      2 "g" [Parameter.mk "a" "b" "immediate"] []
      (AwsErr.mk "Throttling" "rate exceeded")).1 rfl (by decide) (by decide)
    simpa using h
  · have h := (C5_retry_policy
      (Env.mk fun _ => Except.error
        (AwsErr.mk "InvalidDBParameterGroupState" "Group has pending changes"))
      2 "g" [Parameter.mk "a" "b" "immediate"] []
      (AwsErr.mk "InvalidDBParameterGroupState" "Group has pending changes")).2.1
      (fun _ => rfl) (by decide) (by decide)
    simpa using h
  · have h := (C5_retry_policy
      (Env.mk fun k => if k < 1 then Except.error
          (AwsErr.mk "InvalidDBParameterGroupState" "Group has pending changes")
        else Except.ok [])
      2 "g" [Parameter.mk "a" "b" "immediate"] []
      (AwsErr.mk "InvalidDBParameterGroupState" "Group has pending changes")).2.2.1
      1 [] (by decide) (by decide) (by decide)
      (by
        intro k hk
        have hk0 : k = 0 := by omega
        subst hk0
        rfl)
      (by decide) rfl
    simpa using h
  · have h := (C5_retry_policy
      (Env.mk fun _ => Except.error (AwsErr.mk "Throttling" "rate exceeded"))
      2 "g" [Parameter.mk "a" "b" "immediate"] []
      (AwsErr.mk "Throttling" "rate exceeded")).2.2.2 rfl (by decide)
    simpa using h

/-! ### Delete helper lemmas -/

theorem deleteGroup_ok (env : Env) (fuel : Nat) (id : String)
    (tr : List RemoteCall) (v : List String)
    (h : env.respond tr.length = Except.ok v) :
    resourceAwsNeptuneParameterGroupDelete env fuel id tr =
      (tr ++ [RemoteCall.deleteGroup id], none) := by
  cases fuel <;> simp [resourceAwsNeptuneParameterGroupDelete, h]

theorem deleteGroup_notfound (env : Env) (fuel : Nat) (id : String)
    (tr : List RemoteCall) (e : AwsErr)
    (h : env.respond tr.length = Except.error e)
    (hnf : isAWSErr e ErrCodeDBParameterGroupNotFoundFault "" = true) :
    resourceAwsNeptuneParameterGroupDelete env fuel id tr =
      (tr ++ [RemoteCall.deleteGroup id], none) := by
  cases fuel <;> simp [resourceAwsNeptuneParameterGroupDelete, h, hnf]

theorem deleteGroup_fatal (env : Env) (fuel : Nat) (id : String)
    (tr : List RemoteCall) (e : AwsErr)
    (h : env.respond tr.length = Except.error e)
    (hnf : isAWSErr e ErrCodeDBParameterGroupNotFoundFault "" = false)
    (hinv : isAWSErr e ErrCodeInvalidDBParameterGroupStateFault "" = false) :
    resourceAwsNeptuneParameterGroupDelete env fuel id tr =
      (tr ++ [RemoteCall.deleteGroup id], some (ProviderErr.aws e)) := by
  cases fuel <;> simp [resourceAwsNeptuneParameterGroupDelete, h, hnf, hinv]

theorem deleteGroup_exhaust (env : Env) (id : String) (e : AwsErr)
    (h : ∀ k, env.respond k = Except.error e)
    (hnf : isAWSErr e ErrCodeDBParameterGroupNotFoundFault "" = false)
    (hinv : isAWSErr e ErrCodeInvalidDBParameterGroupStateFault "" = true) :
    ∀ (fuel : Nat) (tr : List RemoteCall),
      resourceAwsNeptuneParameterGroupDelete env fuel id tr =
        (tr ++ List.replicate (fuel + 1) (RemoteCall.deleteGroup id),
          some (ProviderErr.aws e)) := by
  intro fuel
  induction fuel with
  | zero =>
    intro tr
    simp [resourceAwsNeptuneParameterGroupDelete, h tr.length, hnf, hinv]
  | succ f ih =>
    intro tr
    rw [resourceAwsNeptuneParameterGroupDelete]
    simp only [h tr.length, hnf, hinv, Bool.false_eq_true, if_false, if_true]
    rw [ih (tr ++ [RemoteCall.deleteGroup id])]
    simp [List.replicate_succ, List.append_assoc]

theorem deleteGroup_recovers (env : Env) (id : String) (e : AwsErr)
    (hnf : isAWSErr e ErrCodeDBParameterGroupNotFoundFault "" = false)
    (hinv : isAWSErr e ErrCodeInvalidDBParameterGroupStateFault "" = true) :
    ∀ (j fuel : Nat) (tr : List RemoteCall) (v : List String), j ≤ fuel →
      (∀ k, k < j → env.respond (tr.length + k) = Except.error e) →
      env.respond (tr.length + j) = Except.ok v →
      resourceAwsNeptuneParameterGroupDelete env fuel id tr =
        (tr ++ List.replicate (j + 1) (RemoteCall.deleteGroup id), none) := by
  intro j
  induction j with
  | zero =>
    intro fuel tr v hj hk hok
    simp only [Nat.add_zero] at hok
    exact deleteGroup_ok env fuel id tr v hok
  | succ j ih =>
    intro fuel tr v hj hk hok
    cases fuel with
    | zero => omega
    | succ f =>
      have h0 : env.respond tr.length = Except.error e := by
        have := hk 0 (Nat.succ_pos j)
        simpa using this
      rw [resourceAwsNeptuneParameterGroupDelete]
      simp only [h0, hnf, hinv, Bool.false_eq_true, if_false, if_true]
      have hrec := ih f (tr ++ [RemoteCall.deleteGroup id]) v (by omega)
        (fun k hkk => by
          have hx := hk (k + 1) (by omega)
          have hl : (tr ++ [RemoteCall.deleteGroup id]).length + k = tr.length + (k + 1) := by
            simp [List.length_append]
            omega
          rw [hl]
          exact hx)
        (by
          have hl : (tr ++ [RemoteCall.deleteGroup id]).length + j = tr.length + (j + 1) := by
            simp [List.length_append]
            omega
          rw [hl]
          exact hok)
      rw [hrec]
      simp [List.replicate_succ, List.append_assoc]

/-- C7: the delete path treats a `DBParameterGroupNotFound` error as success;
it retries an `InvalidDBParameterGroupStateFault` error within the bounded
budget (the 3-minute `resource.Retry` window, abstracted as `fuel + 1`
attempts), surfacing it only on budget exhaustion and succeeding silently if
an attempt goes through within the budget; every other error is surfaced at
once after a single call. -/
theorem C7_delete_policy (env : Env) (fuel : Nat) (id : String)
    (tr : List RemoteCall) (e : AwsErr) :
    (env.respond tr.length = Except.error e →
      isAWSErr e ErrCodeDBParameterGroupNotFoundFault "" = true →
      resourceAwsNeptuneParameterGroupDelete env fuel id tr =
        (tr ++ [RemoteCall.deleteGroup id], none)) ∧
    ((∀ k, env.respond k = Except.error e) →
      isAWSErr e ErrCodeDBParameterGroupNotFoundFault "" = false →
      isAWSErr e ErrCodeInvalidDBParameterGroupStateFault "" = true →
      resourceAwsNeptuneParameterGroupDelete env fuel id tr =
        (tr ++ List.replicate (fuel + 1) (RemoteCall.deleteGroup id),
          some (ProviderErr.aws e))) ∧
    (∀ (j : Nat) (v : List String), j ≤ fuel →
      (∀ k, k < j → env.respond (tr.length + k) = Except.error e) →
      isAWSErr e ErrCodeDBParameterGroupNotFoundFault "" = false →
      isAWSErr e ErrCodeInvalidDBParameterGroupStateFault "" = true →
      env.respond (tr.length + j) = Except.ok v →
      resourceAwsNeptuneParameterGroupDelete env fuel id tr =
        (tr ++ List.replicate (j + 1) (RemoteCall.deleteGroup id), none)) ∧
    (env.respond tr.length = Except.error e →
      isAWSErr e ErrCodeDBParameterGroupNotFoundFault "" = false →
      isAWSErr e ErrCodeInvalidDBParameterGroupStateFault "" = false →
      resourceAwsNeptuneParameterGroupDelete env fuel id tr =
        (tr ++ [RemoteCall.deleteGroup id], some (ProviderErr.aws e))) := by
  refine ⟨?_, ?_, ?_, ?_⟩
  · intro h hnf
    exact deleteGroup_notfound env fuel id tr e h hnf
  · intro h hnf hinv
    exact deleteGroup_exhaust env id e h hnf hinv fuel tr
  · intro j v hj hk hnf hinv hok
    exact deleteGroup_recovers env id e hnf hinv j fuel tr v hj hk hok
  · intro h hnf hinv
    exact deleteGroup_fatal env fuel id tr e h hnf hinv

/-- C7 (witness): the delete policy at concrete inputs: a not-found error is
absorbed after one call; a persistent invalid-state error surfaces after the
budget's three attempts; an invalid-state error that clears on the second
attempt ends in success with two calls; an unclassified error surfaces after
one call. -/
theorem C7_delete_policy_witness :
    (resourceAwsNeptuneParameterGroupDelete
        (Env.mk fun _ => Except.error (AwsErr.mk "DBParameterGroupNotFound" "no such group"))
        2 "grp" [] = ([RemoteCall.deleteGroup "grp"], none)) ∧
    (resourceAwsNeptuneParameterGroupDelete
        (Env.mk fun _ => Except.error (AwsErr.mk "InvalidDBParameterGroupState" "pending"))
        2 "grp" [] =
      (List.replicate 3 (RemoteCall.deleteGroup "grp"),
        some (ProviderErr.aws (AwsErr.mk "InvalidDBParameterGroupState" "pending")))) ∧
    (resourceAwsNeptuneParameterGroupDelete
        (Env.mk fun k => if k < 1 then
            Except.error (AwsErr.mk "InvalidDBParameterGroupState" "pending")
          else Except.ok [])
        2 "grp" [] = (List.replicate 2 (RemoteCall.deleteGroup "grp"), none)) ∧
    (resourceAwsNeptuneParameterGroupDelete
        (Env.mk fun _ => Except.error (AwsErr.mk "AccessDenied" "denied"))
        2 "grp" [] =
      ([RemoteCall.deleteGroup "grp"],
        some (ProviderErr.aws (AwsErr.mk "AccessDenied" "denied")))) := by
  refine ⟨?_, ?_, ?_, ?_⟩
  · have h := (C7_delete_policy
      (Env.mk fun _ => Except.error (AwsErr.mk "DBParameterGroupNotFound" "no such group"))
      2 "grp" [] (AwsErr.mk "DBParameterGroupNotFound" "no such group")).1 rfl (by decide)
    simpa using h
  · have h := (C7_delete_policy
      (Env.mk fun _ => Except.error (AwsErr.mk "InvalidDBParameterGroupState" "pending"))
      2 "grp" [] (AwsErr.mk "InvalidDBParameterGroupState" "pending")).2.1
      (fun _ => rfl) (by decide) (by decide)
    simpa using h
  · have h := (C7_delete_policy
      (Env.mk fun k => if k < 1 then
          Except.error (AwsErr.mk "InvalidDBParameterGroupState" "pending")
        else Except.ok [])
      2 "grp" [] (AwsErr.mk "InvalidDBParameterGroupState" "pending")).2.2.1
      1 [] (by decide)
      (by
        intro k hk
        have hk0 : k = 0 := by omega
        subst hk0
        rfl)
      (by decide) (by decide) rfl
    simpa using h
  · have h := (C7_delete_policy
      (Env.mk fun _ => Except.error (AwsErr.mk "AccessDenied" "denied"))
      2 "grp" [] (AwsErr.mk "AccessDenied" "denied")).2.2.2 rfl (by decide) (by decide)
    simpa using h

/-- C8: a `DBParameterGroupNotFound` error is absorbed on both read and
delete: a read whose describe call reports the group missing clears the
local identifier and returns no error, and a delete whose delete call
reports the group missing returns no error. -/
theorem C8_not_found_absorbed (env : Env) (fuel : Nat) (st : ResState)
    (tr : List RemoteCall) (e : AwsErr)
    (h : env.respond tr.length = Except.error e)
    (hnf : isAWSErr e ErrCodeDBParameterGroupNotFoundFault "" = true) :
    resourceAwsNeptuneParameterGroupRead env st tr =
      (ResState.mk "", tr ++ [RemoteCall.describeGroup st.id], none) ∧
    resourceAwsNeptuneParameterGroupDelete env fuel st.id tr =
      (tr ++ [RemoteCall.deleteGroup st.id], none) := by
  constructor
  · simp [resourceAwsNeptuneParameterGroupRead, h, hnf]
  · exact deleteGroup_notfound env fuel st.id tr e h hnf

/-- C8 (witness): the absorption at a concrete not-found error: the read
clears the identifier and succeeds, the delete succeeds. -/
theorem C8_not_found_absorbed_witness :
    resourceAwsNeptuneParameterGroupRead
        (Env.mk fun _ => Except.error (AwsErr.mk "DBParameterGroupNotFound" "gone"))
        (ResState.mk "grp") [] =
      (ResState.mk "", [RemoteCall.describeGroup "grp"], none) ∧
    resourceAwsNeptuneParameterGroupDelete
        (Env.mk fun _ => Except.error (AwsErr.mk "DBParameterGroupNotFound" "gone"))
        5 "grp" [] = ([RemoteCall.deleteGroup "grp"], none) := by
  have h := C8_not_found_absorbed
    (Env.mk fun _ => Except.error (AwsErr.mk "DBParameterGroupNotFound" "gone"))
    5 (ResState.mk "grp") [] (AwsErr.mk "DBParameterGroupNotFound" "gone") rfl (by decide)
  simpa using h

/-- C10: create is not atomic with respect to the follow-on configuration:
when the remote group-creation call fails the error is surfaced with the
state untouched (no identifier assigned); when it succeeds the identifier is
set from the returned canonical group name and only then the update
pipeline runs on the same data — so when that pipeline fails, create
surfaces the pipeline's error while the identifier remains the returned
name. -/
theorem C10_create_nonatomic (env : Env) (fuel : Nat)
    (nm fam desc : String) (o n : List Parameter) (st : ResState)
    (tr : List RemoteCall) :
    (∀ e, env.respond tr.length = Except.error e →
      resourceAwsNeptuneParameterGroupCreate env fuel nm fam desc o n st tr =
        (st, tr ++ [RemoteCall.createGroup nm fam desc],
          some (ProviderErr.wrapped "Error creating Neptune Parameter Group" e))) ∧
    (∀ names, env.respond tr.length = Except.ok names →
      resourceAwsNeptuneParameterGroupCreate env fuel nm fam desc o n st tr =
        resourceAwsNeptuneParameterGroupUpdate env fuel nm o n
          (ResState.mk (names.headD "")) (tr ++ [RemoteCall.createGroup nm fam desc])) ∧
    (∀ names tr1 pe, env.respond tr.length = Except.ok names →
      updatePipeline env fuel nm o n (tr ++ [RemoteCall.createGroup nm fam desc]) =
        (tr1, some pe) →
      resourceAwsNeptuneParameterGroupCreate env fuel nm fam desc o n st tr =
        (ResState.mk (names.headD ""), tr1, some pe)) := by
  refine ⟨?_, ?_, ?_⟩
  · intro e h
    unfold resourceAwsNeptuneParameterGroupCreate
    rw [h]
  · intro names h
    unfold resourceAwsNeptuneParameterGroupCreate
    rw [h]
  · intro names tr1 pe h hp
    have h2 : resourceAwsNeptuneParameterGroupCreate env fuel nm fam desc o n st tr =
        resourceAwsNeptuneParameterGroupUpdate env fuel nm o n
          (ResState.mk (names.headD "")) (tr ++ [RemoteCall.createGroup nm fam desc]) := by
      unfold resourceAwsNeptuneParameterGroupCreate
      rw [h]
    rw [h2]
    exact update_of_pipeline_err env fuel nm o n (ResState.mk (names.headD "")) _ tr1 pe hp

/-- C10 (witness): concretely, a failed creation call leaves the empty
identifier in place, and a successful creation whose first configuration
batch then fails returns that error while the identifier keeps the returned
group name. -/
theorem C10_create_nonatomic_witness :
    (resourceAwsNeptuneParameterGroupCreate
        (Env.mk fun _ => Except.error (AwsErr.mk "AccessDenied" "denied")) 3
        "nm" "fam" "desc" [Parameter.mk "a" "b" "immediate"] [] (ResState.mk "") [] =
      (ResState.mk "", [RemoteCall.createGroup "nm" "fam" "desc"],
        some (ProviderErr.wrapped "Error creating Neptune Parameter Group"
          (AwsErr.mk "AccessDenied" "denied")))) ∧
    (resourceAwsNeptuneParameterGroupCreate
        (Env.mk fun k => if k = 0 then Except.ok ["grp"]
          else Except.error (AwsErr.mk "AccessDenied" "denied")) 3
        "nm" "fam" "desc" [Parameter.mk "a" "b" "immediate"] [] (ResState.mk "") [] =
      (ResState.mk "grp",
        [RemoteCall.createGroup "nm" "fam" "desc",
          RemoteCall.reset "nm" [Parameter.mk "a" "b" "immediate"]],
        some (ProviderErr.wrapped "Error resetting Neptune Parameter Group"
          (AwsErr.mk "AccessDenied" "denied")))) := by
  constructor
  · have h := (C10_create_nonatomic
      (Env.mk fun _ => Except.error (AwsErr.mk "AccessDenied" "denied")) 3
      "nm" "fam" "desc" [Parameter.mk "a" "b" "immediate"] [] (ResState.mk "") []).1
      (AwsErr.mk "AccessDenied" "denied") rfl
    simpa using h
  · have hsd : setDifference [Parameter.mk "a" "b" "immediate"] [] =
        [Parameter.mk "a" "b" "immediate"] := by decide
    have hhc : headChunk [Parameter.mk "a" "b" "immediate"] =
        [Parameter.mk "a" "b" "immediate"] := by decide
    have hr := retryCall_fatal
      (Env.mk fun k => if k = 0 then Except.ok ["grp"]
        else Except.error (AwsErr.mk "AccessDenied" "denied"))
      (RemoteCall.reset "nm" (headChunk [Parameter.mk "a" "b" "immediate"]))
      "InvalidDBParameterGroupState" " has pending changes" 3
      [RemoteCall.createGroup "nm" "fam" "desc"]
      (AwsErr.mk "AccessDenied" "denied") rfl (by decide)
    have hloop := resetLoop_fail
      (Env.mk fun k => if k = 0 then Except.ok ["grp"]
        else Except.error (AwsErr.mk "AccessDenied" "denied")) 3 "nm"
      [Parameter.mk "a" "b" "immediate"] [RemoteCall.createGroup "nm" "fam" "desc"]
      _ _ (by decide) hr
    have hloop2 : resetLoop
        (Env.mk fun k => if k = 0 then Except.ok ["grp"]
          else Except.error (AwsErr.mk "AccessDenied" "denied")) 3 "nm"
        (setDifference [Parameter.mk "a" "b" "immediate"] [])
        [RemoteCall.createGroup "nm" "fam" "desc"] =
        ([RemoteCall.createGroup "nm" "fam" "desc"] ++
            [RemoteCall.reset "nm" (headChunk [Parameter.mk "a" "b" "immediate"])],
          some (ProviderErr.wrapped "Error resetting Neptune Parameter Group"
            (AwsErr.mk "AccessDenied" "denied"))) := by
      rw [hsd]
      exact hloop
    have hp := updatePipeline_reset_err
      (Env.mk fun k => if k = 0 then Except.ok ["grp"]
        else Except.error (AwsErr.mk "AccessDenied" "denied")) 3 "nm"
      [Parameter.mk "a" "b" "immediate"] []
      [RemoteCall.createGroup "nm" "fam" "desc"] _ _ (by decide) hloop2
    have happ := (C10_create_nonatomic
      (Env.mk fun k => if k = 0 then Except.ok ["grp"]
        else Except.error (AwsErr.mk "AccessDenied" "denied")) 3
      "nm" "fam" "desc" [Parameter.mk "a" "b" "immediate"] [] (ResState.mk "") []).2.2
      ["grp"] _ _ rfl hp
    simpa [hhc] using happ

/-- C2 (witness): a 21-element sequence is split into two batches whose
concatenation is the input. -/
theorem C2_batching_witness :
    (batchParams (List.replicate 21 (Parameter.mk "a" "b" "immediate"))).length = 2 ∧
    (batchParams (List.replicate 21 (Parameter.mk "a" "b" "immediate"))).flatten =
      List.replicate 21 (Parameter.mk "a" "b" "immediate") :=
  ⟨((C2_batching (List.replicate 21 (Parameter.mk "a" "b" "immediate"))).2.2.2.1).trans
      (by decide),
    (C2_batching (List.replicate 21 (Parameter.mk "a" "b" "immediate"))).1⟩

/-- C3 (witness): the ordering theorem at a concrete update run. -/
theorem C3_removals_before_additions_witness :
    ∃ extR extM extD st2 res,
      resourceAwsNeptuneParameterGroupUpdate okEnv 3 "g"
          [Parameter.mk "a" "b" "immediate"] [] (ResState.mk "g") [] =
        (st2, [] ++ extR ++ extM ++ extD, res) ∧
      ResetCalls "g" (batchParams (setDifference [Parameter.mk "a" "b" "immediate"] [])) extR ∧
      ModifyCalls "g" (batchParams (setDifference [] [Parameter.mk "a" "b" "immediate"])) extM ∧
      (∀ c ∈ extR, ∃ b, c = RemoteCall.reset "g" b) ∧
      (∀ c ∈ extM, ∃ b, c = RemoteCall.modify "g" b) ∧
      (∀ c ∈ extD, isDescribeCall c = true) :=
  C3_removals_before_additions okEnv 3 "g" [Parameter.mk "a" "b" "immediate"] []
    (ResState.mk "g") []

/-- C6 (witness for the amended claim): the amended theorem at a concrete
run. -/
theorem C6_read_after_pipeline_witness :
    ∃ st2 ext res,
      resourceAwsNeptuneParameterGroupUpdate okEnv 3 "g"
          [Parameter.mk "a" "b" "immediate"] [] (ResState.mk "g") [] =
        (st2, [] ++ ext, res) ∧
      (((∃ e, res = some e) ∧ st2 = ResState.mk "g" ∧ ∀ c ∈ ext, isDescribeCall c = false) ∨
        RemoteCall.describeGroup "g" ∈ ext) :=
  C6_read_after_pipeline okEnv 3 "g" [Parameter.mk "a" "b" "immediate"] []
    (ResState.mk "g") []
